import Mathlib

/-!
Shallow embedding of `src/utils/logger.ts` (two revisions of a structured
logging wrapper around an external base logger).  Revision A is the
`createLogger` factory (conditional `metadata` and `error` keys, generic
copy of extra enumerable error fields); revision B is the exported
singleton `logger` (spread-built records, `metadata` and `error` keys
always written).

JavaScript values are modelled by `JSVal`.  A field whose stored value is
`JSVal.thrower` models an enumerable own property defined by a getter that
throws when accessed.  Exceptions are modelled with `Except Unit`;
property access on `undefined`/`null` throws, as in JS.  Objects are
association lists in insertion order; assignment (`setKey`) overwrites in
place or appends, as JS property assignment does.  Repeated reads of the
same property are deterministic in this model, so a guard such as
`if (req.ip) ... String(req.ip)` is embedded with a single read.
-/

inductive JSVal : Type where
  | undef : JSVal
  | null : JSVal
  | bool (b : Bool) : JSVal
  | num (n : Int) : JSVal
  | str (s : String) : JSVal
  | obj (fields : List (String × JSVal)) : JSVal
  | thrower : JSVal

abbrev JSObj := List (String × JSVal)

/-- First-occurrence lookup of a property in an object. -/
def lookupKey : JSObj → String → Option JSVal
  | [], _ => none
  | (k', v') :: rest, k => if k' = k then some v' else lookupKey rest k

/-- JS property assignment: overwrite in place, else append. -/
def setKey : JSObj → String → JSVal → JSObj
  | [], k, v => [(k, v)]
  | (k', v') :: rest, k, v =>
      if k' = k then (k, v) :: rest else (k', v') :: setKey rest k v

/-- JS truthiness. -/
def truthy : JSVal → Bool
  | .undef => false
  | .null => false
  | .bool b => b
  | .num n => n != 0
  | .str s => s != ""
  | .obj _ => true
  | .thrower => true

/-- The `String(v)` coercion (objects in this model stringify generically). -/
def jsToString : JSVal → String
  | .undef => "undefined"
  | .null => "null"
  | .bool b => if b then "true" else "false"
  | .num n => toString n
  | .str s => s
  | .obj _ => "[object Object]"
  | .thrower => "[object Object]"

/-- Property read `v[k]`; throws on `undefined`/`null` receivers and on
throwing getters; strings expose `length` and their index properties. -/
def getField : JSVal → String → Except Unit JSVal
  | .undef, _ => .error ()
  | .null, _ => .error ()
  | .bool _, _ => .ok .undef
  | .num _, _ => .ok .undef
  | .thrower, _ => .ok .undef
  | .str s, k =>
      if k = "length" then .ok (.num (Int.ofNat s.length))
      else
        match k.toNat? with
        | some i =>
            match s.toList.get? i with
            | some c => .ok (.str (String.mk [c]))
            | none => .ok .undef
        | none => .ok .undef
  | .obj fs, k =>
      match lookupKey fs k with
      | some .thrower => .error ()
      | some v => .ok v
      | none => .ok JSVal.undef

/-- `Object.keys`: own enumerable keys in insertion order (first
occurrence), index keys for strings, empty otherwise. -/
def jsKeys : JSVal → List String
  | .obj fs =>
      fs.foldl (fun acc kv => if kv.1 ∈ acc then acc else acc ++ [kv.1]) []
  | .str s => (List.range s.length).map (fun i => toString i)
  | _ => []

/-! ### Context extractor (`getRequestContext`, identical in both revisions
up to the side channel used for the warning). -/

/-- The optional chain `req.user?.id`. -/
def optChainUserId (req : JSVal) : Except Unit JSVal :=
  match getField req "user" with
  | .error u => .error u
  | .ok .undef => .ok .undef
  | .ok .null => .ok .undef
  | .ok u => getField u "id"

/-- Lines 45–49: the `user` block of the try body.  `Except`'s error side
carries the partial `user` sub-object accumulated before the throw
(`none` = `context.user` was never assigned). -/
def userBlock (req : JSVal) : Except (Option JSObj) (Option JSObj) :=
  match optChainUserId req with
  | .error _ => .error none
  | .ok uid =>
      if truthy uid then
        let uobj : JSObj := [("id", .str (jsToString uid))]
        match getField req "ip" with
        | .error _ => .error (some uobj)
        | .ok ipv =>
            if truthy ipv then .ok (some (setKey uobj "ip" (.str (jsToString ipv))))
            else .ok (some uobj)
      else
        match getField req "ip" with
        | .error _ => .error none
        | .ok ipv =>
            if truthy ipv then .ok (some [("ip", .str (jsToString ipv))])
            else .ok none

/-- Lines 55–56: `route` prefers `originalUrl`, else falls back to `url`. -/
def routePart (req : JSVal) (robj : JSObj) : Except (Option JSObj) (Option JSObj) :=
  match getField req "originalUrl" with
  | .error _ => .error (some robj)
  | .ok ov =>
      if truthy ov then .ok (some (setKey robj "route" (.str (jsToString ov))))
      else
        match getField req "url" with
        | .error _ => .error (some robj)
        | .ok uv =>
            if truthy uv then .ok (some (setKey robj "route" (.str (jsToString uv))))
            else .ok (some robj)

/-- Continuation of the `request` block once the guard was settled by a
truthy `req.id`: lines 54–56 still read `method`/`originalUrl`/`url`. -/
def afterId (req : JSVal) (robj : JSObj) : Except (Option JSObj) (Option JSObj) :=
  match getField req "method" with
  | .error _ => .error (some robj)
  | .ok mv =>
      routePart req (if truthy mv then setKey robj "method" (.str (jsToString mv)) else robj)

/-- Lines 51–57: the `request` block of the try body, with the guard's
short-circuit order (`id`, `method`, `originalUrl`, `url`). -/
def requestBlock (req : JSVal) : Except (Option JSObj) (Option JSObj) :=
  match getField req "id" with
  | .error _ => .error none
  | .ok idv =>
      if truthy idv then afterId req [("id", .str (jsToString idv))]
      else
        match getField req "method" with
        | .error _ => .error none
        | .ok mv =>
            if truthy mv then routePart req [("method", .str (jsToString mv))]
            else
              match getField req "originalUrl" with
              | .error _ => .error none
              | .ok ov =>
                  if truthy ov then .ok (some [("route", .str (jsToString ov))])
                  else
                    match getField req "url" with
                    | .error _ => .error none
                    | .ok uv =>
                        if truthy uv then .ok (some [("route", .str (jsToString uv))])
                        else .ok none

/-- Assemble the `LogContext` object: `user` is assigned before `request`. -/
def buildCtx (uo ro : Option JSObj) : JSObj :=
  (match uo with | some u => [("user", JSVal.obj u)] | none => []) ++
  (match ro with | some r => [("request", JSVal.obj r)] | none => [])

/-- `getRequestContext`: returns the extracted context together with a flag
recording whether the catch block ran (and hence a warning was emitted).
A throw inside the try body is caught; the context accumulated before the
failure is returned. -/
def getRequestContext (req : JSVal) : JSObj × Bool :=
  if truthy req then
    match userBlock req with
    | .error uo => (buildCtx uo none, true)
    | .ok uo =>
        match requestBlock req with
        | .error ro => (buildCtx uo ro, true)
        | .ok ro => (buildCtx uo ro, false)
  else ([], false)

/-! ### Error processor (`processError`, both revisions). -/

/-- `error.message || String(error) || 'Unknown error'`. -/
def messageOf (e : JSVal) : Except Unit JSVal :=
  match getField e "message" with
  | .error u => .error u
  | .ok m =>
      if truthy m then .ok m
      else if truthy (JSVal.str (jsToString e)) then .ok (JSVal.str (jsToString e))
      else .ok (JSVal.str "Unknown error")

/-- `error.stack || 'No stack trace available'`. -/
def stackOf (e : JSVal) : Except Unit JSVal :=
  match getField e "stack" with
  | .error u => .error u
  | .ok st => .ok (if truthy st then st else JSVal.str "No stack trace available")

/-- The hard-coded fallback returned by the catch in `processError`. -/
def fallbackError : JSObj :=
  [("message", JSVal.str "Error processing failed"),
   ("stack", JSVal.str "Unable to extract stack trace")]

/-- Revision B try body (lines 234–237). -/
def tryProcessB (e : JSVal) : Except Unit JSObj :=
  match messageOf e with
  | .error u => .error u
  | .ok m =>
      match stackOf e with
      | .error u => .error u
      | .ok st => .ok [("message", m), ("stack", st)]

/-- Revision B `processError` (lines 230–244). -/
def processErrorB (e : JSVal) : Option JSObj :=
  if truthy e then
    match tryProcessB e with
    | .ok o => some o
    | .error _ => some fallbackError
  else none

/-- The allow-list excluded from the generic copy loop (revision A line 84). -/
def coreErrorKeys : List String := ["message", "stack", "domain", "filepath", "context"]

/-- Revision A lines 72–80: the processed error object computed before the
`Object.keys` copy loop. -/
def preLoopA (e : JSVal) : Except Unit JSObj :=
  match messageOf e with
  | .error u => .error u
  | .ok m =>
      match stackOf e with
      | .error u => .error u
      | .ok st =>
          let o : JSObj := [("message", m), ("stack", st)]
          match getField e "domain" with
          | .error u => .error u
          | .ok d =>
              let o := if truthy d then setKey o "domain" (.str (jsToString d)) else o
              match getField e "filepath" with
              | .error u => .error u
              | .ok f =>
                  let o := if truthy f then setKey o "filepath" (.str (jsToString f)) else o
                  match getField e "context" with
                  | .error u => .error u
                  | .ok cx => .ok (if truthy cx then setKey o "context" cx else o)

/-- Revision A lines 83–87: copy every other enumerable field of the
source error onto the processed object; an access that throws aborts the
loop (and is caught by the surrounding catch). -/
def copyLoop (e : JSVal) : List String → JSObj → Except Unit JSObj
  | [], o => .ok o
  | k :: rest, o =>
      if k ∈ coreErrorKeys then copyLoop e rest o
      else
        match getField e k with
        | .error u => .error u
        | .ok v => copyLoop e rest (setKey o k v)

/-- Revision A try body (lines 71–89). -/
def tryProcessA (e : JSVal) : Except Unit JSObj :=
  match preLoopA e with
  | .error u => .error u
  | .ok o => copyLoop e (jsKeys e) o

/-- Revision A `processError` (lines 65–97). -/
def processErrorA (e : JSVal) : Option JSObj :=
  if truthy e then
    match tryProcessA e with
    | .ok o => some o
    | .error _ => some fallbackError
  else none

/-! ### Leveled facade: the structured record handed to the base logger. -/

inductive Level : Type where
  | trace | debug | info | warn | error | fatal
deriving DecidableEq

/-- Revision A non-error methods (trace/debug/info/warn have identical
bodies apart from the base-logger severity method): `metadata` is attached
only when `Object.keys(metadata).length > 0`. -/
def nonErrorRecordA (req : JSVal) (md : JSObj) : JSObj :=
  let ctx := (getRequestContext req).1
  if 0 < (jsKeys (JSVal.obj md)).length then setKey ctx "metadata" (.obj md) else ctx

/-- Revision A error/fatal methods: `error` is attached only when
`processError` returned a (truthy) object. -/
def errorRecordA (req err : JSVal) (md : JSObj) : JSObj :=
  let ctx := (getRequestContext req).1
  let ctx :=
    match processErrorA err with
    | some e => setKey ctx "error" (.obj e)
    | none => ctx
  if 0 < (jsKeys (JSVal.obj md)).length then setKey ctx "metadata" (.obj md) else ctx

/-- Object-literal spread: write every entry of `o` onto `base` in order. -/
def spreadInto (base : JSObj) (o : JSObj) : JSObj :=
  o.foldl (fun acc kv => setKey acc kv.1 kv.2) base

/-- Revision B non-error methods: `{...getRequestContext(req), metadata}` —
the `metadata` key is always written. -/
def nonErrorRecordB (req : JSVal) (md : JSObj) : JSObj :=
  setKey (spreadInto [] (getRequestContext req).1) "metadata" (.obj md)

/-- Revision B error/fatal methods:
`{...getRequestContext(req), error: processError(error), metadata}` — the
`error` key is always written, with value `undefined` when `processError`
returned `undefined`. -/
def errorRecordB (req err : JSVal) (md : JSObj) : JSObj :=
  let o := spreadInto [] (getRequestContext req).1
  let o := setKey o "error"
    (match processErrorB err with | some e => JSVal.obj e | none => JSVal.undef)
  setKey o "metadata" (.obj md)

/-- A call to a revision-A severity method, as seen by the caller: the
method body contains no try/catch, so any exception escaping the helpers
would surface here as `Except.error`. -/
def createLoggerCall (lvl : Level) (req err : JSVal) (md : JSObj) : Except Unit JSObj :=
  match lvl with
  | .error => .ok (errorRecordA req err md)
  | .fatal => .ok (errorRecordA req err md)
  | _ => .ok (nonErrorRecordA req md)

/-- A call to a revision-B severity method, as seen by the caller. -/
def loggerCall (lvl : Level) (req err : JSVal) (md : JSObj) : Except Unit JSObj :=
  match lvl with
  | .error => .ok (errorRecordB req err md)
  | .fatal => .ok (errorRecordB req err md)
  | _ => .ok (nonErrorRecordB req md)

/-! ### Helper lemmas about the object model. -/

theorem lookupKey_setKey_self (o : JSObj) (k : String) (v : JSVal) :
    lookupKey (setKey o k v) k = some v := by
  induction o with
  | nil => simp [setKey, lookupKey]
  | cons kv rest ih =>
    obtain ⟨k', v'⟩ := kv
    by_cases h : k' = k
    · simp [setKey, h, lookupKey]
    · simp [setKey, h, lookupKey, ih]

theorem lookupKey_setKey_ne (o : JSObj) {k k' : String} (v : JSVal) (h : k ≠ k') :
    lookupKey (setKey o k' v) k = lookupKey o k := by
  induction o with
  | nil => simp [setKey, lookupKey, Ne.symm h]
  | cons kv rest ih =>
    obtain ⟨a, b⟩ := kv
    by_cases ha : a = k'
    · subst ha
      simp [setKey, lookupKey, Ne.symm h]
    · simp only [setKey, if_neg ha, lookupKey]
      by_cases hak : a = k
      · simp [hak]
      · simp [hak, ih]

theorem lookupKey_buildCtx_user (uo ro : Option JSObj) :
    lookupKey (buildCtx uo ro) "user" = uo.map JSVal.obj := by
  cases uo <;> cases ro <;> rfl

theorem lookupKey_buildCtx_request (uo ro : Option JSObj) :
    lookupKey (buildCtx uo ro) "request" = ro.map JSVal.obj := by
  cases uo <;> cases ro <;> rfl

theorem lookupKey_buildCtx_other (uo ro : Option JSObj) (k : String)
    (h1 : k ≠ "user") (h2 : k ≠ "request") :
    lookupKey (buildCtx uo ro) k = none := by
  cases uo <;> cases ro <;>
    simp [buildCtx, lookupKey, Ne.symm h1, Ne.symm h2]

theorem getRequestContext_eq_buildCtx (req : JSVal) :
    ∃ uo ro, (getRequestContext req).1 = buildCtx uo ro := by
  unfold getRequestContext
  by_cases h : truthy req = true
  · rw [if_pos h]
    cases hu : userBlock req with
    | error uo => exact ⟨uo, none, rfl⟩
    | ok uo =>
      cases hr : requestBlock req with
      | error ro => exact ⟨uo, ro, rfl⟩
      | ok ro => exact ⟨uo, ro, rfl⟩
  · rw [if_neg h]
    exact ⟨none, none, rfl⟩

theorem lookupKey_getRequestContext_other (req : JSVal) (k : String)
    (h1 : k ≠ "user") (h2 : k ≠ "request") :
    lookupKey (getRequestContext req).1 k = none := by
  obtain ⟨uo, ro, h⟩ := getRequestContext_eq_buildCtx req
  rw [h]
  exact lookupKey_buildCtx_other uo ro k h1 h2

theorem spreadInto_buildCtx (uo ro : Option JSObj) :
    spreadInto [] (buildCtx uo ro) = buildCtx uo ro := by
  cases uo <;> cases ro <;> rfl

theorem copyLoop_preserves (e : JSVal) (k : String) (hk : k ∈ coreErrorKeys) :
    ∀ (ks : List String) (o o' : JSObj), copyLoop e ks o = .ok o' →
      lookupKey o' k = lookupKey o k := by
  intro ks
  induction ks with
  | nil =>
    intro o o' h
    simp only [copyLoop] at h
    cases h
    rfl
  | cons k' rest ih =>
    intro o o' h
    simp only [copyLoop] at h
    by_cases hmem : k' ∈ coreErrorKeys
    · rw [if_pos hmem] at h
      exact ih o o' h
    · rw [if_neg hmem] at h
      cases hg : getField e k' with
      | error u => rw [hg] at h; cases h
      | ok v =>
        rw [hg] at h
        rw [ih _ _ h]
        exact lookupKey_setKey_ne _ _ (by rintro rfl; exact hmem hk)

theorem lookupKey_ite_setKey (x : JSObj) (c : Prop) [Decidable c] (k' : String) (v : JSVal)
    (k : String) (hk : k ≠ k') :
    lookupKey (if c then setKey x k' v else x) k = lookupKey x k := by
  by_cases hc : c
  · rw [if_pos hc, lookupKey_setKey_ne _ _ hk]
  · rw [if_neg hc]

theorem setKey_append_of_absent (o : JSObj) (k : String) (v : JSVal)
    (h : lookupKey o k = none) : setKey o k v = o ++ [(k, v)] := by
  induction o with
  | nil => rfl
  | cons kv rest ih =>
    obtain ⟨a, b⟩ := kv
    simp only [lookupKey] at h
    by_cases hak : a = k
    · rw [if_pos hak] at h
      cases h
    · rw [if_neg hak] at h
      simp [setKey, hak, ih h]

theorem keysAcc_ne_nil (l : JSObj) :
    ∀ acc : List String, acc ≠ [] →
      l.foldl (fun acc kv => if kv.1 ∈ acc then acc else acc ++ [kv.1]) acc ≠ [] := by
  induction l with
  | nil => intro acc h; exact h
  | cons kv rest ih =>
    intro acc h
    simp only [List.foldl]
    apply ih
    by_cases hm : kv.1 ∈ acc
    · rw [if_pos hm]; exact h
    · rw [if_neg hm]; simp

theorem jsKeys_obj_pos_iff (md : JSObj) :
    0 < (jsKeys (JSVal.obj md)).length ↔ md ≠ [] := by
  cases md with
  | nil => simp [jsKeys]
  | cons kv rest =>
    constructor
    · intro _
      simp
    · intro _
      have hne : rest.foldl
          (fun acc kv => if kv.1 ∈ acc then acc else acc ++ [kv.1]) [kv.1] ≠ [] :=
        keysAcc_ne_nil rest [kv.1] (by simp)
      have hstep : jsKeys (JSVal.obj (kv :: rest)) =
          rest.foldl (fun acc kv => if kv.1 ∈ acc then acc else acc ++ [kv.1]) [kv.1] := by
        simp [jsKeys]
      rw [hstep]
      exact List.length_pos.mpr hne

/-! ### Sanity checks on concrete inputs. -/

example : getRequestContext (.obj [("ip", .str "1.2.3.4")]) =
    ([("user", .obj [("ip", .str "1.2.3.4")])], false) := rfl

example : getRequestContext (.obj [("user", .obj [("id", .str "u9")]), ("ip", .thrower)]) =
    ([("user", .obj [("id", .str "u9")])], true) := rfl

example : processErrorB (.obj []) =
    some [("message", .str "[object Object]"), ("stack", .str "No stack trace available")] :=
  rfl

example : processErrorA (.obj [("boom", .thrower)]) = some fallbackError := rfl

/-! ### Claim theorems. -/

/-- C1: every call to any of the six severity methods, in both revisions,
returns normally — an `Except.ok` record — for every request-like value,
error-like value, and metadata record (the message string does not affect
the record), so no exception reaches the caller. -/
theorem C1_no_exception_escapes (lvl : Level) (req err : JSVal) (md : JSObj) :
    (∃ r, createLoggerCall lvl req err md = .ok r) ∧
    (∃ r, loggerCall lvl req err md = .ok r) := by
  cases lvl <;> exact ⟨⟨_, rfl⟩, ⟨_, rfl⟩⟩

/-- C2: in both revisions, for every truthy error-like input whose field
probing throws, `processError` returns exactly the fallback object
`message = "Error processing failed"`, `stack = "Unable to extract stack
trace"`; being total, it raises nothing further. -/
theorem C2_processError_fallback (e : JSVal) (h : truthy e = true) :
    (∀ u, tryProcessA e = .error u → processErrorA e = some fallbackError) ∧
    (∀ u, tryProcessB e = .error u → processErrorB e = some fallbackError) := by
  constructor
  · intro u hu
    simp [processErrorA, h, hu]
  · intro u hu
    simp [processErrorB, h, hu]

theorem C2_witness :
    truthy (JSVal.obj [("message", JSVal.thrower)]) = true ∧
    tryProcessA (JSVal.obj [("message", JSVal.thrower)]) = .error () ∧
    tryProcessB (JSVal.obj [("message", JSVal.thrower)]) = .error () ∧
    processErrorA (JSVal.obj [("message", JSVal.thrower)]) = some fallbackError ∧
    processErrorB (JSVal.obj [("message", JSVal.thrower)]) = some fallbackError := by
  refine ⟨rfl, rfl, rfl, ?_, ?_⟩
  · exact (C2_processError_fallback (JSVal.obj [("message", JSVal.thrower)]) rfl).1 () rfl
  · exact (C2_processError_fallback (JSVal.obj [("message", JSVal.thrower)]) rfl).2 () rfl

/-- C3: for every truthy request-like input whose probing throws,
`getRequestContext` catches the exception, reports the warning (the
`true` flag), and returns exactly the partial context accumulated before
the failure; being total, it never propagates the exception. -/
theorem C3_partial_context_on_throw (req : JSVal) (h : truthy req = true) :
    (∀ uo, userBlock req = .error uo →
      getRequestContext req = (buildCtx uo none, true)) ∧
    (∀ uo ro, userBlock req = .ok uo → requestBlock req = .error ro →
      getRequestContext req = (buildCtx uo ro, true)) := by
  constructor
  · intro uo hu
    simp [getRequestContext, h, hu]
  · intro uo ro hu hr
    simp [getRequestContext, h, hu, hr]

theorem C3_witness :
    (getRequestContext (JSVal.obj [("user", JSVal.thrower)]) =
      (buildCtx none none, true)) ∧
    (getRequestContext (JSVal.obj [("ip", JSVal.str "1.1.1.1"), ("id", JSVal.thrower)]) =
      (buildCtx (some [("ip", JSVal.str "1.1.1.1")]) none, true)) := by
  constructor
  · exact (C3_partial_context_on_throw (JSVal.obj [("user", JSVal.thrower)]) rfl).1 none rfl
  · exact (C3_partial_context_on_throw
      (JSVal.obj [("ip", JSVal.str "1.1.1.1"), ("id", JSVal.thrower)]) rfl).2
      (some [("ip", JSVal.str "1.1.1.1")]) none rfl rfl

/-- C6: for every absent (falsy) request-like input, `getRequestContext`
returns the empty context, containing neither a `user` nor a `request`
key. -/
theorem C6_absent_request_empty (req : JSVal) (h : truthy req = false) :
    (getRequestContext req).1 = [] ∧
    lookupKey (getRequestContext req).1 "user" = none ∧
    lookupKey (getRequestContext req).1 "request" = none := by
  unfold getRequestContext
  rw [if_neg (by simp [h])]
  exact ⟨rfl, rfl, rfl⟩

theorem getRequestContext_ok (req : JSVal) (h : truthy req = true)
    {uo ro : Option JSObj} (hu : userBlock req = .ok uo) (hr : requestBlock req = .ok ro) :
    getRequestContext req = (buildCtx uo ro, false) := by
  simp [getRequestContext, h, hu, hr]

theorem lookupKey_user_of_userBlock (req : JSVal) (h : truthy req = true)
    {uo : Option JSObj} (hu : userBlock req = .ok uo) :
    lookupKey (getRequestContext req).1 "user" = uo.map JSVal.obj := by
  simp only [getRequestContext, if_pos h, hu]
  cases hr : requestBlock req <;> simp [lookupKey_buildCtx_user]

/-- C4 (amended): in the createLogger revision, the record handed to the
base logger contains an `error` key iff `processError`'s output is
defined, and an absent (falsy) error argument yields no `error` key; in
the singleton revision the `error` key is always written, with value
`undefined` exactly when `processError`'s output is undefined. -/
theorem C4_error_key_policy (req err : JSVal) (md : JSObj) :
    ((lookupKey (errorRecordA req err md) "error").isSome = (processErrorA err).isSome) ∧
    (truthy err = false → lookupKey (errorRecordA req err md) "error" = none) ∧
    (lookupKey (errorRecordB req err md) "error" =
      some (match processErrorB err with
            | some e => JSVal.obj e
            | none => JSVal.undef)) := by
  have hctx : lookupKey (getRequestContext req).1 "error" = none :=
    lookupKey_getRequestContext_other req "error" (by decide) (by decide)
  refine ⟨?_, ?_, ?_⟩
  · rcases hpe : processErrorA err with _ | e2
    · simp only [errorRecordA, hpe]
      rw [lookupKey_ite_setKey _ _ _ _ _ (by decide), hctx]
      rfl
    · simp only [errorRecordA, hpe]
      rw [lookupKey_ite_setKey _ _ _ _ _ (by decide), lookupKey_setKey_self]
      rfl
  · intro hf
    have hpe : processErrorA err = none := by simp [processErrorA, hf]
    simp only [errorRecordA, hpe]
    rw [lookupKey_ite_setKey _ _ _ _ _ (by decide), hctx]
  · simp only [errorRecordB]
    rw [lookupKey_setKey_ne _ _ (by decide), lookupKey_setKey_self]

theorem C4_witness :
    ((lookupKey (errorRecordA JSVal.undef JSVal.undef []) "error").isSome =
      (processErrorA JSVal.undef).isSome) ∧
    lookupKey (errorRecordA JSVal.undef JSVal.undef []) "error" = none ∧
    (lookupKey (errorRecordB JSVal.undef JSVal.undef []) "error" =
      some (match processErrorB JSVal.undef with
            | some e => JSVal.obj e
            | none => JSVal.undef)) := by
  obtain ⟨h1, h2, h3⟩ := C4_error_key_policy JSVal.undef JSVal.undef []
  exact ⟨h1, h2 rfl, h3⟩

theorem C4_counterexample :
    lookupKey (errorRecordB JSVal.undef JSVal.undef []) "error" = some JSVal.undef ∧
    processErrorB JSVal.undef = none :=
  ⟨rfl, rfl⟩

/-- C5: for every call to a non-error level method, the record handed to
the base logger is the context-extraction result merged with the metadata
argument; the createLogger revision attaches the `metadata` key iff the
metadata record is non-empty, the singleton revision always attaches it. -/
theorem C5_metadata_policy (req : JSVal) (md : JSObj) :
    (nonErrorRecordA req md =
      if md.isEmpty then (getRequestContext req).1
      else setKey (getRequestContext req).1 "metadata" (JSVal.obj md)) ∧
    ((lookupKey (nonErrorRecordA req md) "metadata" ≠ none) ↔ md ≠ []) ∧
    (nonErrorRecordB req md = (getRequestContext req).1 ++ [("metadata", JSVal.obj md)]) := by
  have hmeta : lookupKey (getRequestContext req).1 "metadata" = none :=
    lookupKey_getRequestContext_other req "metadata" (by decide) (by decide)
  have hA : nonErrorRecordA req md =
      if md.isEmpty then (getRequestContext req).1
      else setKey (getRequestContext req).1 "metadata" (JSVal.obj md) := by
    cases md with
    | nil => simp [nonErrorRecordA, jsKeys]
    | cons kv rest =>
      have hpos := (jsKeys_obj_pos_iff (kv :: rest)).mpr (by simp)
      simp [nonErrorRecordA, hpos]
  refine ⟨hA, ?_, ?_⟩
  · rw [hA]
    cases md with
    | nil => simp [hmeta]
    | cons kv rest => simp [lookupKey_setKey_self]
  · obtain ⟨uo, ro, hshape⟩ := getRequestContext_eq_buildCtx req
    rw [nonErrorRecordB, hshape, spreadInto_buildCtx]
    exact setKey_append_of_absent _ _ _ (hshape ▸ hmeta)

theorem C6_witness :
    truthy JSVal.undef = false ∧
    ((getRequestContext JSVal.undef).1 = [] ∧
      lookupKey (getRequestContext JSVal.undef).1 "user" = none ∧
      lookupKey (getRequestContext JSVal.undef).1 "request" = none) :=
  ⟨rfl, C6_absent_request_empty JSVal.undef rfl⟩

/-- C7: for every truthy request-like input whose user block completes and
whose `id` probe succeeds: with truthy `method` and `originalUrl` fields
the context's `request` sub-object carries that method and `route` =
the original URL; with `originalUrl` falsy but `url` truthy, `route`
falls back to the URL field; and the `request` sub-object is present only
if at least one of `id`, `method`, `originalUrl`, `url` is truthy. -/
theorem C7_request_extraction (req : JSVal) (h : truthy req = true)
    (uo : Option JSObj) (hu : userBlock req = .ok uo) :
    (∀ idv m o, getField req "id" = .ok idv → getField req "method" = .ok m →
      truthy m = true → getField req "originalUrl" = .ok o → truthy o = true →
      ∃ r, lookupKey (getRequestContext req).1 "request" = some (JSVal.obj r) ∧
        lookupKey r "method" = some (JSVal.str (jsToString m)) ∧
        lookupKey r "route" = some (JSVal.str (jsToString o))) ∧
    (∀ idv m o u, getField req "id" = .ok idv → getField req "method" = .ok m →
      getField req "originalUrl" = .ok o → truthy o = false →
      getField req "url" = .ok u → truthy u = true →
      ∃ r, lookupKey (getRequestContext req).1 "request" = some (JSVal.obj r) ∧
        lookupKey r "route" = some (JSVal.str (jsToString u))) ∧
    (∀ idv m o u, getField req "id" = .ok idv → truthy idv = false →
      getField req "method" = .ok m → truthy m = false →
      getField req "originalUrl" = .ok o → truthy o = false →
      getField req "url" = .ok u → truthy u = false →
      lookupKey (getRequestContext req).1 "request" = none) := by
  refine ⟨?_, ?_, ?_⟩
  · intro idv m o hid hm hmT ho hoT
    by_cases hidT : truthy idv = true
    · have hreq : requestBlock req = .ok (some
          (setKey (setKey [("id", JSVal.str (jsToString idv))] "method"
            (JSVal.str (jsToString m))) "route" (JSVal.str (jsToString o)))) := by
        simp [requestBlock, afterId, routePart, hid, hidT, hm, hmT, ho, hoT]
      refine ⟨setKey (setKey [("id", JSVal.str (jsToString idv))] "method"
          (JSVal.str (jsToString m))) "route" (JSVal.str (jsToString o)), ?_, ?_, ?_⟩
      · rw [getRequestContext_ok req h hu hreq]
        simp [lookupKey_buildCtx_request]
      · rw [lookupKey_setKey_ne _ _ (by decide)]
        exact lookupKey_setKey_self _ _ _
      · exact lookupKey_setKey_self _ _ _
    · have hidF : truthy idv = false := by
        cases hb : truthy idv
        · rfl
        · exact absurd hb hidT
      have hreq : requestBlock req = .ok (some
          (setKey [("method", JSVal.str (jsToString m))] "route"
            (JSVal.str (jsToString o)))) := by
        simp [requestBlock, routePart, hid, hidF, hm, hmT, ho, hoT]
      refine ⟨setKey [("method", JSVal.str (jsToString m))] "route"
          (JSVal.str (jsToString o)), ?_, ?_, ?_⟩
      · rw [getRequestContext_ok req h hu hreq]
        simp [lookupKey_buildCtx_request]
      · rw [lookupKey_setKey_ne _ _ (by decide)]
        rfl
      · exact lookupKey_setKey_self _ _ _
  · intro idv m o u hid hm ho hoF hurl huT
    by_cases hidT : truthy idv = true
    · by_cases hmT : truthy m = true
      · have hreq : requestBlock req = .ok (some
            (setKey (setKey [("id", JSVal.str (jsToString idv))] "method"
              (JSVal.str (jsToString m))) "route" (JSVal.str (jsToString u)))) := by
          simp [requestBlock, afterId, routePart, hid, hidT, hm, hmT, ho, hoF, hurl, huT]
        refine ⟨setKey (setKey [("id", JSVal.str (jsToString idv))] "method"
            (JSVal.str (jsToString m))) "route" (JSVal.str (jsToString u)), ?_, ?_⟩
        · rw [getRequestContext_ok req h hu hreq]
          simp [lookupKey_buildCtx_request]
        · exact lookupKey_setKey_self _ _ _
      · have hmF : truthy m = false := by
          cases hb : truthy m
          · rfl
          · exact absurd hb hmT
        have hreq : requestBlock req = .ok (some
            (setKey [("id", JSVal.str (jsToString idv))] "route"
              (JSVal.str (jsToString u)))) := by
          simp [requestBlock, afterId, routePart, hid, hidT, hm, hmF, ho, hoF, hurl, huT]
        refine ⟨setKey [("id", JSVal.str (jsToString idv))] "route"
            (JSVal.str (jsToString u)), ?_, ?_⟩
        · rw [getRequestContext_ok req h hu hreq]
          simp [lookupKey_buildCtx_request]
        · exact lookupKey_setKey_self _ _ _
    · have hidF : truthy idv = false := by
        cases hb : truthy idv
        · rfl
        · exact absurd hb hidT
      by_cases hmT : truthy m = true
      · have hreq : requestBlock req = .ok (some
            (setKey [("method", JSVal.str (jsToString m))] "route"
              (JSVal.str (jsToString u)))) := by
          simp [requestBlock, routePart, hid, hidF, hm, hmT, ho, hoF, hurl, huT]
        refine ⟨setKey [("method", JSVal.str (jsToString m))] "route"
            (JSVal.str (jsToString u)), ?_, ?_⟩
        · rw [getRequestContext_ok req h hu hreq]
          simp [lookupKey_buildCtx_request]
        · exact lookupKey_setKey_self _ _ _
      · have hmF : truthy m = false := by
          cases hb : truthy m
          · rfl
          · exact absurd hb hmT
        have hreq : requestBlock req = .ok (some [("route", JSVal.str (jsToString u))]) := by
          simp [requestBlock, hid, hidF, hm, hmF, ho, hoF, hurl, huT]
        refine ⟨[("route", JSVal.str (jsToString u))], ?_, ?_⟩
        · rw [getRequestContext_ok req h hu hreq]
          simp [lookupKey_buildCtx_request]
        · simp [lookupKey]
  · intro idv m o u hid hidF hm hmF ho hoF hurl huF
    have hreq : requestBlock req = .ok none := by
      simp [requestBlock, hid, hidF, hm, hmF, ho, hoF, hurl, huF]
    rw [getRequestContext_ok req h hu hreq]
    simp [lookupKey_buildCtx_request]

theorem C7_witness :
    (∃ r, lookupKey (getRequestContext
        (JSVal.obj [("method", JSVal.str "GET"), ("originalUrl", JSVal.str "/login")])).1
        "request" = some (JSVal.obj r) ∧
      lookupKey r "method" = some (JSVal.str "GET") ∧
      lookupKey r "route" = some (JSVal.str "/login")) ∧
    (∃ r, lookupKey (getRequestContext
        (JSVal.obj [("id", JSVal.str "r1"), ("url", JSVal.str "/u")])).1
        "request" = some (JSVal.obj r) ∧
      lookupKey r "route" = some (JSVal.str "/u")) ∧
    lookupKey (getRequestContext (JSVal.obj [("ip", JSVal.str "9.9.9.9")])).1
      "request" = none := by
  refine ⟨?_, ?_, ?_⟩
  · exact (C7_request_extraction
      (JSVal.obj [("method", JSVal.str "GET"), ("originalUrl", JSVal.str "/login")])
      rfl none rfl).1 JSVal.undef (JSVal.str "GET") (JSVal.str "/login") rfl rfl rfl rfl rfl
  · exact (C7_request_extraction
      (JSVal.obj [("id", JSVal.str "r1"), ("url", JSVal.str "/u")])
      rfl none rfl).2.1 (JSVal.str "r1") JSVal.undef JSVal.undef (JSVal.str "/u")
      rfl rfl rfl rfl rfl rfl
  · exact (C7_request_extraction
      (JSVal.obj [("ip", JSVal.str "9.9.9.9")])
      rfl (some [("ip", JSVal.str "9.9.9.9")]) rfl).2.2
      JSVal.undef JSVal.undef JSVal.undef JSVal.undef rfl rfl rfl rfl rfl rfl rfl rfl

/-- C8: for every truthy request-like input with a falsy user-id probe and
a truthy address field, the context's `user` sub-object is exactly
`{ip: <address>}` (no `id` key); if additionally the four request source
fields are falsy there is no `request` key; and with both user sources
falsy the `user` key is absent altogether. -/
theorem C8_user_extraction (req : JSVal) (h : truthy req = true) :
    (∀ uid ipv, optChainUserId req = .ok uid → truthy uid = false →
      getField req "ip" = .ok ipv → truthy ipv = true →
      lookupKey (getRequestContext req).1 "user" =
        some (JSVal.obj [("ip", JSVal.str (jsToString ipv))])) ∧
    (∀ uid ipv idv m o u, optChainUserId req = .ok uid → truthy uid = false →
      getField req "ip" = .ok ipv → truthy ipv = true →
      getField req "id" = .ok idv → truthy idv = false →
      getField req "method" = .ok m → truthy m = false →
      getField req "originalUrl" = .ok o → truthy o = false →
      getField req "url" = .ok u → truthy u = false →
      lookupKey (getRequestContext req).1 "request" = none) ∧
    (∀ uid ipv, optChainUserId req = .ok uid → truthy uid = false →
      getField req "ip" = .ok ipv → truthy ipv = false →
      lookupKey (getRequestContext req).1 "user" = none) := by
  refine ⟨?_, ?_, ?_⟩
  · intro uid ipv huid huidF hip hipT
    have hub : userBlock req = .ok (some [("ip", JSVal.str (jsToString ipv))]) := by
      simp [userBlock, huid, huidF, hip, hipT]
    rw [lookupKey_user_of_userBlock req h hub]
    rfl
  · intro uid ipv idv m o u huid huidF hip hipT hid hidF hm hmF ho hoF hurl huF
    have hub : userBlock req = .ok (some [("ip", JSVal.str (jsToString ipv))]) := by
      simp [userBlock, huid, huidF, hip, hipT]
    have hreq : requestBlock req = .ok none := by
      simp [requestBlock, hid, hidF, hm, hmF, ho, hoF, hurl, huF]
    rw [getRequestContext_ok req h hub hreq]
    simp [lookupKey_buildCtx_request]
  · intro uid ipv huid huidF hip hipF
    have hub : userBlock req = .ok none := by
      simp [userBlock, huid, huidF, hip, hipF]
    rw [lookupKey_user_of_userBlock req h hub]
    rfl

theorem C8_witness :
    (lookupKey (getRequestContext (JSVal.obj [("ip", JSVal.str "1.2.3.4")])).1 "user" =
      some (JSVal.obj [("ip", JSVal.str "1.2.3.4")])) ∧
    (lookupKey (getRequestContext (JSVal.obj [("ip", JSVal.str "1.2.3.4")])).1 "request" =
      none) ∧
    (lookupKey (getRequestContext (JSVal.obj [("foo", JSVal.str "x")])).1 "user" = none) := by
  refine ⟨?_, ?_, ?_⟩
  · exact (C8_user_extraction (JSVal.obj [("ip", JSVal.str "1.2.3.4")]) rfl).1
      JSVal.undef (JSVal.str "1.2.3.4") rfl rfl rfl rfl
  · exact (C8_user_extraction (JSVal.obj [("ip", JSVal.str "1.2.3.4")]) rfl).2.1
      JSVal.undef (JSVal.str "1.2.3.4") JSVal.undef JSVal.undef JSVal.undef JSVal.undef
      rfl rfl rfl rfl rfl rfl rfl rfl rfl rfl rfl rfl
  · exact (C8_user_extraction (JSVal.obj [("foo", JSVal.str "x")]) rfl).2.2
      JSVal.undef JSVal.undef rfl rfl rfl rfl

theorem messageOf_ok (e : JSVal) {m : JSVal} (hm : getField e "message" = .ok m) :
    messageOf e = .ok (if truthy m then m
      else if truthy (JSVal.str (jsToString e)) then JSVal.str (jsToString e)
      else JSVal.str "Unknown error") := by
  unfold messageOf
  rw [hm]
  by_cases h1 : truthy m = true <;>
    by_cases h2 : truthy (JSVal.str (jsToString e)) = true <;>
    simp [h1, h2]

theorem stackOf_ok (e : JSVal) {st : JSVal} (hst : getField e "stack" = .ok st) :
    stackOf e = .ok (if truthy st then st else JSVal.str "No stack trace available") := by
  unfold stackOf
  rw [hst]

theorem preLoopA_lookup (e : JSVal) {m st : JSVal} {o₀ : JSObj}
    (hm : getField e "message" = .ok m) (hst : getField e "stack" = .ok st)
    (hp : preLoopA e = .ok o₀) :
    lookupKey o₀ "message" = some (if truthy m then m
      else if truthy (JSVal.str (jsToString e)) then JSVal.str (jsToString e)
      else JSVal.str "Unknown error") ∧
    lookupKey o₀ "stack" =
      some (if truthy st then st else JSVal.str "No stack trace available") := by
  unfold preLoopA at hp
  rw [messageOf_ok e hm, stackOf_ok e hst] at hp
  cases hd : getField e "domain" with
  | error u => rw [hd] at hp; cases hp
  | ok d =>
    rw [hd] at hp
    cases hf : getField e "filepath" with
    | error u => rw [hf] at hp; cases hp
    | ok f =>
      rw [hf] at hp
      cases hcx : getField e "context" with
      | error u => rw [hcx] at hp; cases hp
      | ok cx =>
        rw [hcx] at hp
        injection hp with hp
        subst hp
        constructor
        · rw [lookupKey_ite_setKey _ _ _ _ _ (by decide),
            lookupKey_ite_setKey _ _ _ _ _ (by decide),
            lookupKey_ite_setKey _ _ _ _ _ (by decide)]
          rfl
        · rw [lookupKey_ite_setKey _ _ _ _ _ (by decide),
            lookupKey_ite_setKey _ _ _ _ _ (by decide),
            lookupKey_ite_setKey _ _ _ _ _ (by decide)]
          rfl

/-- C9 (amended): for every truthy error-like input whose `message` and
`stack` probes succeed: in the singleton revision the processed `message`
is the source's message field when truthy, else the string coercion of
the source when non-empty, else "Unknown error", and the processed
`stack` is the source's stack field when truthy, else "No stack trace
available"; in the createLogger revision the same holds for its `message`
and `stack` fields whenever the remainder of its try body (the
`domain`/`filepath`/`context` probes and the extra-key copy loop) also
completes without throwing, and when that remainder throws the result is
exactly the fallback object instead; and for every falsy input both
revisions return `undefined`. -/
theorem C9_message_stack_fallbacks (e : JSVal) :
    (∀ m st, truthy e = true → getField e "message" = .ok m → getField e "stack" = .ok st →
      processErrorB e = some
        [("message", if truthy m then m
            else if truthy (JSVal.str (jsToString e)) then JSVal.str (jsToString e)
            else JSVal.str "Unknown error"),
         ("stack", if truthy st then st else JSVal.str "No stack trace available")]) ∧
    (∀ m st o, getField e "message" = .ok m → getField e "stack" = .ok st →
      tryProcessA e = .ok o →
      lookupKey o "message" = some (if truthy m then m
          else if truthy (JSVal.str (jsToString e)) then JSVal.str (jsToString e)
          else JSVal.str "Unknown error") ∧
      lookupKey o "stack" =
        some (if truthy st then st else JSVal.str "No stack trace available")) ∧
    (∀ u, truthy e = true → tryProcessA e = .error u →
      processErrorA e = some fallbackError) ∧
    (truthy e = false → processErrorB e = none ∧ processErrorA e = none) := by
  refine ⟨?_, ?_, ?_, ?_⟩
  · intro m st h hm hst
    simp [processErrorB, tryProcessB, messageOf_ok e hm, stackOf_ok e hst, h]
  · intro m st o hm hst hpa
    unfold tryProcessA at hpa
    cases hp : preLoopA e with
    | error u => rw [hp] at hpa; cases hpa
    | ok o₀ =>
      rw [hp] at hpa
      obtain ⟨h1, h2⟩ := preLoopA_lookup e hm hst hp
      constructor
      · rw [copyLoop_preserves e "message" (by simp [coreErrorKeys]) (jsKeys e) o₀ o hpa, h1]
      · rw [copyLoop_preserves e "stack" (by simp [coreErrorKeys]) (jsKeys e) o₀ o hpa, h2]
  · intro u h hterr
    simp [processErrorA, h, hterr]
  · intro h
    constructor
    · simp [processErrorB, h]
    · simp [processErrorA, h]

theorem C9_witness :
    (processErrorB (JSVal.obj [("stack", JSVal.str "S")]) = some
      [("message", JSVal.str "[object Object]"), ("stack", JSVal.str "S")]) ∧
    (lookupKey [("message", JSVal.str "[object Object]"), ("stack", JSVal.str "S")]
        "message" = some (JSVal.str "[object Object]") ∧
      lookupKey [("message", JSVal.str "[object Object]"), ("stack", JSVal.str "S")]
        "stack" = some (JSVal.str "S")) ∧
    (processErrorA (JSVal.obj [("stack", JSVal.str "S"), ("domain", JSVal.thrower)]) =
      some fallbackError) ∧
    (processErrorB JSVal.undef = none ∧ processErrorA JSVal.undef = none) := by
  refine ⟨?_, ?_, ?_, ?_⟩
  · exact (C9_message_stack_fallbacks (JSVal.obj [("stack", JSVal.str "S")])).1
      JSVal.undef (JSVal.str "S") rfl rfl rfl
  · exact (C9_message_stack_fallbacks (JSVal.obj [("stack", JSVal.str "S")])).2.1
      JSVal.undef (JSVal.str "S")
      [("message", JSVal.str "[object Object]"), ("stack", JSVal.str "S")] rfl rfl rfl
  · exact (C9_message_stack_fallbacks
      (JSVal.obj [("stack", JSVal.str "S"), ("domain", JSVal.thrower)])).2.2.1 () rfl rfl
  · exact (C9_message_stack_fallbacks JSVal.undef).2.2.2 rfl

theorem C9_counterexample :
    (processErrorB (JSVal.obj []) =
      some [("message", JSVal.str "[object Object]"),
            ("stack", JSVal.str "No stack trace available")]) ∧
    (processErrorA (JSVal.obj []) =
      some [("message", JSVal.str "[object Object]"),
            ("stack", JSVal.str "No stack trace available")]) ∧
    (("[object Object]" : String) ≠ "Unknown error") ∧
    (processErrorB (JSVal.obj [("message", JSVal.thrower)]) = some fallbackError) ∧
    (lookupKey fallbackError "stack" = some (JSVal.str "Unable to extract stack trace")) ∧
    (("Unable to extract stack trace" : String) ≠ "No stack trace available") := by
  exact ⟨rfl, rfl, by decide, rfl, rfl, by decide⟩

/-- C10 (amended): in the createLogger revision, whenever the try body of
`processError` completes — the copy loop finishes without any access
throwing — the `message`, `stack`, `domain`, `filepath` and `context`
fields of the resulting object equal the values computed before the loop,
regardless of what other enumerable keys the source defines. -/
theorem C10_copy_loop_frame (e : JSVal) (o₀ o₁ : JSObj)
    (hp : preLoopA e = .ok o₀) (ht : tryProcessA e = .ok o₁) :
    lookupKey o₁ "message" = lookupKey o₀ "message" ∧
    lookupKey o₁ "stack" = lookupKey o₀ "stack" ∧
    lookupKey o₁ "domain" = lookupKey o₀ "domain" ∧
    lookupKey o₁ "filepath" = lookupKey o₀ "filepath" ∧
    lookupKey o₁ "context" = lookupKey o₀ "context" := by
  unfold tryProcessA at ht
  rw [hp] at ht
  exact ⟨copyLoop_preserves e "message" (by simp [coreErrorKeys]) _ _ _ ht,
    copyLoop_preserves e "stack" (by simp [coreErrorKeys]) _ _ _ ht,
    copyLoop_preserves e "domain" (by simp [coreErrorKeys]) _ _ _ ht,
    copyLoop_preserves e "filepath" (by simp [coreErrorKeys]) _ _ _ ht,
    copyLoop_preserves e "context" (by simp [coreErrorKeys]) _ _ _ ht⟩

theorem C10_witness :
    (preLoopA (JSVal.obj [("message", JSVal.str "hi"), ("extra", JSVal.str "x")]) = .ok
      [("message", JSVal.str "hi"), ("stack", JSVal.str "No stack trace available")]) ∧
    (tryProcessA (JSVal.obj [("message", JSVal.str "hi"), ("extra", JSVal.str "x")]) = .ok
      [("message", JSVal.str "hi"), ("stack", JSVal.str "No stack trace available"),
       ("extra", JSVal.str "x")]) ∧
    (lookupKey [("message", JSVal.str "hi"), ("stack", JSVal.str "No stack trace available"),
        ("extra", JSVal.str "x")] "message" =
      lookupKey [("message", JSVal.str "hi"),
        ("stack", JSVal.str "No stack trace available")] "message" ∧
     lookupKey [("message", JSVal.str "hi"), ("stack", JSVal.str "No stack trace available"),
        ("extra", JSVal.str "x")] "stack" =
      lookupKey [("message", JSVal.str "hi"),
        ("stack", JSVal.str "No stack trace available")] "stack" ∧
     lookupKey [("message", JSVal.str "hi"), ("stack", JSVal.str "No stack trace available"),
        ("extra", JSVal.str "x")] "domain" =
      lookupKey [("message", JSVal.str "hi"),
        ("stack", JSVal.str "No stack trace available")] "domain" ∧
     lookupKey [("message", JSVal.str "hi"), ("stack", JSVal.str "No stack trace available"),
        ("extra", JSVal.str "x")] "filepath" =
      lookupKey [("message", JSVal.str "hi"),
        ("stack", JSVal.str "No stack trace available")] "filepath" ∧
     lookupKey [("message", JSVal.str "hi"), ("stack", JSVal.str "No stack trace available"),
        ("extra", JSVal.str "x")] "context" =
      lookupKey [("message", JSVal.str "hi"),
        ("stack", JSVal.str "No stack trace available")] "context") := by
  exact ⟨rfl, rfl, C10_copy_loop_frame
    (JSVal.obj [("message", JSVal.str "hi"), ("extra", JSVal.str "x")]) _ _ rfl rfl⟩

theorem C10_counterexample :
    (preLoopA (JSVal.obj [("boom", JSVal.thrower)]) = .ok
      [("message", JSVal.str "[object Object]"),
       ("stack", JSVal.str "No stack trace available")]) ∧
    (processErrorA (JSVal.obj [("boom", JSVal.thrower)]) = some fallbackError) ∧
    (lookupKey fallbackError "message" = some (JSVal.str "Error processing failed")) ∧
    (lookupKey [("message", JSVal.str "[object Object]"),
        ("stack", JSVal.str "No stack trace available")] "message" =
      some (JSVal.str "[object Object]")) ∧
    (("Error processing failed" : String) ≠ "[object Object]") := by
  exact ⟨rfl, rfl, rfl, rfl, by decide⟩
